import Mathlib

/-!
# Verification of the simple-photo-management image pipeline

Shallow embedding of `spm_api/spm_app/spm_worker/process_images.py`
(`ProcessImages`): directory enumeration, format conversion, IPTC keyword
metadata transfer, and the orchestrating generator
`generate_processed_copies`.

File-system and image-codec effects are abstracted into an `Env` record of
oracles (directory listings, metadata reads, conversion/write success).
Each pipeline run is a pure function of the configuration and the
environment, additionally producing a chronological trace of the external
calls it makes (`Event`), so that claims about "FormatConverter is not
invoked" or "no metadata write is attempted" are statements about the
trace.
-/

namespace SPM

/-! ## Python path helpers (`os.path.join`, `os.path.splitext`, posix) -/

/-- `os.path.join(a, b)` for two components (posix semantics): an absolute
second component replaces the first, otherwise a `/` separator is inserted
unless one is already there. -/
def ospath_join (a b : String) : String :=
  if b.toList.take 1 = ['/'] then b
  else if a = "" ∨ a.toList.getLast? = some '/' then a ++ b
  else a ++ "/" ++ b

/-- `str.lower()` (ASCII case folding, which is all the conversion-format
allow-list comparison can distinguish). -/
def str_lower (s : String) : String :=
  String.mk (s.toList.map fun c =>
    if 'A' ≤ c ∧ c ≤ 'Z' then Char.ofNat (c.toNat + 32) else c)

/-- Index of the last occurrence of `c` in `l`, if any. -/
def lastIndexOf (c : Char) (l : List Char) : Option Nat :=
  (l.foldl (fun (p : Nat × Option Nat) x =>
    (p.1 + 1, if x = c then some p.1 else p.2)) (0, none)).2

/-- `os.path.splitext`: split at the final dot of the basename, provided a
non-dot character precedes it within the basename (so `.bashrc` keeps its
leading dot). -/
def splitext (p : String) : String × String :=
  let l := p.toList
  match lastIndexOf '.' l with
  | none => (p, "")
  | some d =>
    let s : Nat := match lastIndexOf '/' l with
      | none => 0
      | some i => i + 1
    if s ≤ d ∧ ((l.drop s).take (d - s)).any (fun ch => ch ≠ '.') then
      (String.mk (l.take d), String.mk (l.drop d))
    else (p, "")

/-! ## SHA-1 (`hashlib.sha1(path.encode()).hexdigest()`)

Implemented from FIPS 180-4 over `Nat`, with 32-bit wrap-around made
explicit via `% 2 ^ 32`. -/

/-- UTF-8 encoding of one character, as byte values. -/
def utf8Char (c : Char) : List Nat :=
  let n := c.toNat
  if n < 128 then [n]
  else if n < 2048 then [192 + n / 64, 128 + n % 64]
  else if n < 65536 then [224 + n / 4096, 128 + (n / 64) % 64, 128 + n % 64]
  else [240 + n / 262144, 128 + (n / 4096) % 64, 128 + (n / 64) % 64, 128 + n % 64]

/-- `str.encode()`: UTF-8 bytes of a string. -/
def utf8Encode (s : String) : List Nat :=
  s.toList.flatMap utf8Char

/-- Rotate a 32-bit word (represented as a `Nat` below `2 ^ 32`) left by `k`. -/
def rotl (k x : Nat) : Nat :=
  (x % 2 ^ (32 - k)) * 2 ^ k + x / 2 ^ (32 - k)

/-- Big-endian 8-byte encoding of a length in bits. -/
def be64 (n : Nat) : List Nat :=
  [n / 2 ^ 56 % 256, n / 2 ^ 48 % 256, n / 2 ^ 40 % 256, n / 2 ^ 32 % 256,
   n / 2 ^ 24 % 256, n / 2 ^ 16 % 256, n / 2 ^ 8 % 256, n % 256]

/-- SHA-1 padding: append `0x80`, zero-fill to 56 mod 64, then the 64-bit
big-endian message bit length. -/
def sha1Pad (msg : List Nat) : List Nat :=
  let L := msg.length
  msg ++ [128] ++ List.replicate ((119 - L % 64) % 64) 0 ++ be64 (8 * L)

/-- Pack bytes into big-endian 32-bit words. -/
def toWords : List Nat → List Nat
  | a :: b :: c :: d :: rest => (a * 16777216 + b * 65536 + c * 256 + d) :: toWords rest
  | _ => []

/-- Message-schedule extension: append `n` further words, each the 1-bit
left-rotation of `w[t-3] xor w[t-8] xor w[t-14] xor w[t-16]`. -/
def sha1Extend : Nat → List Nat → List Nat
  | 0, w => w
  | n + 1, w =>
    let g (i : Nat) : Nat := w.getD (w.length - i) 0
    sha1Extend n (w ++ [rotl 1 (((g 3).xor (g 8)).xor ((g 14).xor (g 16)))])

/-- State of the five 32-bit chaining variables. -/
structure Sha1State where
  h0 : Nat
  h1 : Nat
  h2 : Nat
  h3 : Nat
  h4 : Nat

/-- One of the 80 SHA-1 rounds. -/
def sha1Round (i : Nat) (st : Nat × Nat × Nat × Nat × Nat) (wi : Nat) :
    Nat × Nat × Nat × Nat × Nat :=
  let (a, b, c, d, e) := st
  let f :=
    if i < 20 then (b.land c).lor ((4294967295 - b).land d)
    else if i < 40 then (b.xor c).xor d
    else if i < 60 then ((b.land c).lor (b.land d)).lor (c.land d)
    else (b.xor c).xor d
  let k :=
    if i < 20 then 1518500249
    else if i < 40 then 1859775393
    else if i < 60 then 2400959708
    else 3395469782
  let temp := (rotl 5 a + f + e + k + wi) % 2 ^ 32
  (temp, a, rotl 30 b, c, d)

/-- Compress one 16-word block into the chaining state. -/
def sha1Block (h : Sha1State) (block : List Nat) : Sha1State :=
  let w := sha1Extend 64 block
  let init : Nat × Nat × Nat × Nat × Nat := (h.h0, h.h1, h.h2, h.h3, h.h4)
  let fin := (w.enum.foldl (fun st p => sha1Round p.1 st p.2) init)
  let (a, b, c, d, e) := fin
  ⟨(h.h0 + a) % 2 ^ 32, (h.h1 + b) % 2 ^ 32, (h.h2 + c) % 2 ^ 32,
   (h.h3 + d) % 2 ^ 32, (h.h4 + e) % 2 ^ 32⟩

/-- Process the word stream 16 words at a time (fuel-indexed recursion; the
fuel is the word count, an upper bound on the number of blocks). -/
def sha1Blocks : Nat → Sha1State → List Nat → Sha1State
  | 0, h, _ => h
  | fuel + 1, h, ws =>
    match ws with
    | [] => h
    | _ => sha1Blocks fuel (sha1Block h (ws.take 16)) (ws.drop 16)

/-- Lower-case hex digit. -/
def hexDigit (n : Nat) : Char :=
  if n < 10 then Char.ofNat (48 + n) else Char.ofNat (87 + n)

/-- 8-hex-digit big-endian rendering of a 32-bit word. -/
def hex8 (n : Nat) : String :=
  String.mk ((List.range 8).map fun i => hexDigit (n / 16 ^ (7 - i) % 16))

/-- `hashlib.sha1(s.encode()).hexdigest()`. -/
def sha1hex (s : String) : String :=
  let ws := toWords (sha1Pad (utf8Encode s))
  let h := sha1Blocks ws.length ⟨1732584193, 4023233417, 2562383102, 271733878, 3285377520⟩ ws
  hex8 h.h0 ++ hex8 h.h1 ++ hex8 h.h2 ++ hex8 h.h3 ++ hex8 h.h4

/-! ## Data model

`TagData` is the `{'iptc_key': ..., 'tags': [...]}` dict, `ConversionData`
the `{'orig_path': ..., 'processed_path': ..., 'filename': ...}` dict, and
`ProcessedData` the generator's shared accumulator dict `processed_data`;
`conversion_data = none` models the Python value `False` stored there after
a failed conversion. -/

/-- One IPTC metadata record: `{'iptc_key': key, 'tags': [...]}`. -/
structure TagData where
  iptc_key : String
  tags : List String
deriving DecidableEq, Repr

/-- A successful conversion record:
`{'orig_path': ..., 'processed_path': ..., 'filename': ...}`. -/
structure ConversionData where
  orig_path : String
  processed_path : String
  filename : String
deriving DecidableEq, Repr

/-- The generator's accumulator dict `processed_data`. -/
structure ProcessedData where
  conversion_data : Option ConversionData
  tag_data : TagData
deriving DecidableEq, Repr

/-- One directory entry, with the `os.path.isdir` answer for it. -/
structure Entry where
  name : String
  isDir : Bool
deriving DecidableEq, Repr

/-- Oracles for the external world.
* `listdir d`: `os.listdir d`, `none` when it raises (missing directory,
  permission denied).
* `imageMeta url`: the IPTC entries (`iptc_keys` with their raw values) of
  the image at `url`; `none` when `pyexiv2` reading raises.
* `convertOk src dst`: whether `PIL.Image.open(src).save(dst)` succeeds.
* `writeOk url`: whether the `pyexiv2` metadata write to `url` succeeds. -/
structure Env where
  listdir : String → Option (List Entry)
  imageMeta : String → Option (List (String × List String))
  convertOk : String → String → Bool
  writeOk : String → Bool

/-- Trace of external calls made by a pipeline run. -/
inductive Event where
  | convert (srcUrl destUrl : String) (ok : Bool)
  | readTags (url : String) (ok : Bool)
  | writeTags (url : String) (key : String) (tags : List String) (ret : Bool)
deriving DecidableEq, Repr

/-- `True` exactly on conversion events. -/
def Event.isConvert : Event → Bool
  | .convert _ _ _ => true
  | _ => false

/-- `True` exactly on metadata-write events. -/
def Event.isWrite : Event → Bool
  | .writeTags _ _ _ _ => true
  | _ => false

/-- `True` exactly on metadata-read events. -/
def Event.isRead : Event → Bool
  | .readTags _ _ => true
  | _ => false

/-! ## The `ProcessImages` methods -/

/-- `ProcessImages.ALLOWED_CONVERSION_FORMATS`. -/
def ALLOWED_CONVERSION_FORMATS : List String := ["jpeg", "jpg", "tiff", "tif", "png"]

/-- A Python value passed as the `retag` argument: a genuine `bool` or any
non-boolean value (modelled by representative constructors). -/
inductive PyVal where
  | bool (b : Bool)
  | int (n : Int)
  | str (s : String)
  | pynone
deriving DecidableEq, Repr

/-- `isinstance(v, bool)`. -/
def isinstanceBool : PyVal → Bool
  | .bool _ => true
  | _ => false

/-- The configuration fields set by `ProcessImages.__init__`. -/
structure Config where
  original_image_paths : List String
  processed_image_path : String
  conversion_format : String
  retag : Bool
deriving DecidableEq, Repr

/-- `ProcessImages.__init__`: keeps the requested format only when its
lower-casing is allow-listed, else substitutes `'jpg'`; coerces a
non-boolean `retag` to `False`. -/
def ProcessImages_init (image_paths : List String) (processed_image_path : String)
    (conversion_format : String) (retag : PyVal) : Config :=
  { original_image_paths := image_paths
    processed_image_path := processed_image_path
    conversion_format :=
      if str_lower conversion_format ∈ ALLOWED_CONVERSION_FORMATS then conversion_format
      else "jpg"
    retag := match retag with | .bool b => b | _ => false }

/-- `ProcessImages.get_filenames`: the non-directory entries of a
directory; `none` models the `False` returned when listing raises. -/
def get_filenames (env : Env) (directory : String) : Option (List String) :=
  match env.listdir directory with
  | none => none
  | some entries => some ((entries.filter fun e => !e.isDir).map Entry.name)

/-- `ProcessImages.read_iptc_tags`: all IPTC records of the image, the
sentinel record `{'iptc_key': '', 'tags': []}` when the image has none, and
`none` (Python `False`) when reading raises. -/
def read_iptc_tags (env : Env) (filename path : String) : Option (List TagData) :=
  match env.imageMeta (ospath_join path filename) with
  | none => none
  | some entries =>
    if entries.isEmpty then some [⟨"", []⟩]
    else some (entries.map fun e => ⟨e.1, e.2⟩)

/-- `ProcessImages.write_iptc_tags`: writes the record's tags to the target
image only when its key is `Iptc.Application2.Keywords`, returning the
success flag and what was written (`none` when nothing was). Any other key,
or a raising write, yields `(false, none)`. -/
def write_iptc_tags (env : Env) (path filename : String) (tag_data : TagData) :
    Bool × Option (List String) :=
  if tag_data.iptc_key = "Iptc.Application2.Keywords" then
    if env.writeOk (ospath_join path filename) then (true, some tag_data.tags)
    else (false, none)
  else (false, none)

/-- `ProcessImages.convert_format`: re-encodes `path/orig_filename` as
`save_path/outfile` where `outfile` re-extends the stem of `new_filename`
with the conversion format; `none` models the `False` returned when PIL
raises. -/
def convert_format (env : Env) (orig_filename new_filename path save_path
    conversion_format : String) : Option ConversionData × List Event :=
  let url := ospath_join path orig_filename
  let outfile := (splitext new_filename).1 ++ "." ++ conversion_format
  let dest := ospath_join save_path outfile
  if env.convertOk url dest then
    (some ⟨path, save_path, outfile⟩, [Event.convert url dest true])
  else (none, [Event.convert url dest false])

/-- The provenance marker appended before writing copied tags. -/
def PROVENANCE : String := "SPM: TAGS COPIED FROM ORIGINAL"

/-- The computed converted filename
`f'{path_hash}_{os.path.splitext(filename)[0]}.{conversion_format}'`. -/
def new_filename (image_path filename conversion_format : String) : String :=
  sha1hex image_path ++ "_" ++ (splitext filename).1 ++ "." ++ conversion_format

/-- The `for tag in tag_data` loop of `generate_processed_copies`: a record
with non-empty tags gets the provenance marker appended, is stored in the
accumulator and written to the converted file; a record with empty tags is
stored unchanged with no write. -/
def applyTags (env : Env) (processed_image_path new_fn : String) :
    List TagData → ProcessedData → ProcessedData × List Event
  | [], acc => (acc, [])
  | tag :: rest, acc =>
    if tag.tags ≠ [] then
      let tag' : TagData := ⟨tag.iptc_key, tag.tags ++ [PROVENANCE]⟩
      let ret := (write_iptc_tags env processed_image_path new_fn tag').1
      let ev := Event.writeTags (ospath_join processed_image_path new_fn)
        tag'.iptc_key tag'.tags ret
      let (accF, evs) := applyTags env processed_image_path new_fn rest
        { acc with tag_data := tag' }
      (accF, ev :: evs)
    else
      applyTags env processed_image_path new_fn rest { acc with tag_data := tag }

/-- Snapshot of a run of the generator: the yielded records (the
accumulator's value at each yield), the chronological call trace, the
accumulator itself, and whether an uncaught exception has ended the run
(it is swallowed by the generator's outer `except`, so nothing propagates
to the consumer — but no further records are yielded). -/
structure RunState where
  results : List ProcessedData
  events : List Event
  acc : ProcessedData
  aborted : Bool
deriving DecidableEq, Repr

/-- The per-file body of `generate_processed_copies`. Directories are
skipped; when the output-directory listing failed (`existing = none`) the
membership test `new_filename in False` raises `TypeError`, aborting the
run; otherwise the file is converted or passed through, then tagged when
newly converted or `retag` is set, and the accumulator is yielded. -/
def processFile (cfg : Config) (env : Env) (existing : Option (List String))
    (image_path : String) (entry : Entry) (st : RunState) : RunState :=
  if st.aborted then st
  else if entry.isDir then st
  else
    let filename := entry.name
    let new_fn := new_filename image_path filename cfg.conversion_format
    match existing with
    | none => { st with aborted := true }
    | some ex =>
      let converted_did_exist : Bool := decide (new_fn ∈ ex)
      let (acc1, ev1) :=
        if !converted_did_exist then
          let (res, evs) := convert_format env filename new_fn image_path
            cfg.processed_image_path cfg.conversion_format
          ({ st.acc with conversion_data := res }, evs)
        else
          ({ st.acc with conversion_data :=
              (some ⟨image_path, cfg.processed_image_path, new_fn⟩) }, [])
      let (acc2, ev2) :=
        if cfg.retag || !converted_did_exist then
          let url := ospath_join image_path filename
          match read_iptc_tags env filename image_path with
          | none => (acc1, [Event.readTags url false])
          | some tags =>
            let (a, evs) := applyTags env cfg.processed_image_path new_fn tags acc1
            (a, Event.readTags url true :: evs)
        else (acc1, [])
      { st with
        acc := acc2
        events := st.events ++ ev1 ++ ev2
        results := st.results ++ [acc2] }

/-- The per-directory body of `generate_processed_copies`: a raising
`os.listdir(image_path)` aborts the run; otherwise each entry is processed
in order. -/
def processDir (cfg : Config) (env : Env) (existing : Option (List String))
    (st : RunState) (image_path : String) : RunState :=
  if st.aborted then st
  else
    match env.listdir image_path with
    | none => { st with aborted := true }
    | some entries =>
      entries.foldl (fun s e => processFile cfg env existing image_path e s) st

/-- The accumulator's initial value. -/
def initAcc : ProcessedData := ⟨some ⟨"", "", ""⟩, ⟨"", []⟩⟩

/-- `ProcessImages.generate_processed_copies`: snapshot the output
directory once, then process every configured source directory. -/
def generate_processed_copies (cfg : Config) (env : Env) : RunState :=
  let existing := get_filenames env cfg.processed_image_path
  cfg.original_image_paths.foldl (processDir cfg env existing) ⟨[], [], initAcc, false⟩

/-- The keyword metadata of the image at `url` after a trace of events has
run, given it had none before: the tags of the last successful metadata
write to `url`. -/
def keywordsAfter (events : List Event) (url : String) : Option (List String) :=
  events.foldl (fun cur ev =>
    match ev with
    | .writeTags u _ tags true => if u = url then some tags else cur
    | _ => cur) none

/-- Total number of plain files across the listable source directories. -/
def totalFiles (env : Env) (dirs : List String) : Nat :=
  (dirs.map fun d =>
    match env.listdir d with
    | none => 0
    | some entries => (entries.filter fun e => !e.isDir).length).sum

/-! ## Basic lemmas about the pipeline step functions -/

/-- After an abort nothing further happens per file. -/
lemma processFile_of_aborted (cfg : Config) (env : Env) (ex : Option (List String))
    (p : String) (e : Entry) (st : RunState) (h : st.aborted = true) :
    processFile cfg env ex p e st = st := by
  simp [processFile, h]

/-- Directory entries are skipped. -/
lemma processFile_of_isDir (cfg : Config) (env : Env) (ex : Option (List String))
    (p : String) (e : Entry) (st : RunState) (h : e.isDir = true) :
    processFile cfg env ex p e st = st := by
  by_cases ha : st.aborted <;> simp [processFile, h, ha]

/-- With `retag = False` and the computed name already in the snapshot, a
file is passed through: no events, the pass-through conversion record, the
accumulator's tag record untouched, and one more yielded result. -/
lemma processFile_pass (cfg : Config) (env : Env) (ex : List String)
    (p : String) (e : Entry) (st : RunState) (ha : st.aborted = false)
    (hd : e.isDir = false) (hr : cfg.retag = false)
    (hm : new_filename p e.name cfg.conversion_format ∈ ex) :
    processFile cfg env (some ex) p e st =
      ⟨st.results ++ [⟨some ⟨p, cfg.processed_image_path,
          new_filename p e.name cfg.conversion_format⟩, st.acc.tag_data⟩],
        st.events,
        ⟨some ⟨p, cfg.processed_image_path,
          new_filename p e.name cfg.conversion_format⟩, st.acc.tag_data⟩,
        false⟩ := by
  have hdec : decide (new_filename p e.name cfg.conversion_format ∈ ex) = true :=
    decide_eq_true hm
  simp [processFile, ha, hd, hr, hdec]

/-- After an abort nothing further happens per directory. -/
lemma processDir_of_aborted (cfg : Config) (env : Env) (ex : Option (List String))
    (st : RunState) (p : String) (h : st.aborted = true) :
    processDir cfg env ex st p = st := by
  simp [processDir, h]

/-- An aborted run state is left untouched by the remaining directories. -/
lemma foldDirs_of_aborted (cfg : Config) (env : Env) (ex : Option (List String))
    (dirs : List String) (st : RunState) (h : st.aborted = true) :
    dirs.foldl (processDir cfg env ex) st = st := by
  induction dirs with
  | nil => rfl
  | cons d rest ih => simp [processDir_of_aborted cfg env ex st d h, ih]

/-- An unlistable source directory aborts the run there, yielding nothing
further but raising no exception to the consumer. -/
lemma processDir_of_listdir_fail (cfg : Config) (env : Env) (ex : Option (List String))
    (st : RunState) (p : String) (h : env.listdir p = none) :
    (processDir cfg env ex st p).aborted = true ∧
    (processDir cfg env ex st p).results = st.results := by
  by_cases ha : st.aborted <;> simp [processDir, ha, h]

/-- Fold form of `processFile_pass` over a directory's entries. -/
lemma foldFiles_pass (cfg : Config) (env : Env) (ex : List String) (p : String) :
    ∀ (entries : List Entry) (st : RunState), st.aborted = false → cfg.retag = false →
    (∀ e ∈ entries, e.isDir = false → new_filename p e.name cfg.conversion_format ∈ ex) →
    (entries.foldl (fun s e => processFile cfg env (some ex) p e s) st).events = st.events ∧
    (entries.foldl (fun s e => processFile cfg env (some ex) p e s) st).aborted = false ∧
    (entries.foldl (fun s e => processFile cfg env (some ex) p e s) st).results.length
      = st.results.length + (entries.filter fun e => !e.isDir).length ∧
    ∀ r ∈ (entries.foldl (fun s e => processFile cfg env (some ex) p e s) st).results,
      r ∈ st.results ∨ ∃ nf, r.conversion_data = some ⟨p, cfg.processed_image_path, nf⟩ := by
  intro entries
  induction entries with
  | nil => intro st ha hr _; simpa using ⟨ha, fun r hrr => Or.inl hrr⟩
  | cons e rest ih =>
    intro st ha hr hmem
    by_cases hd : e.isDir
    · have heq : processFile cfg env (some ex) p e st = st :=
        processFile_of_isDir cfg env (some ex) p e st hd
      have := ih st ha hr (fun x hx => hmem x (List.mem_cons_of_mem e hx))
      simpa [heq, hd] using this
    · have hd' : e.isDir = false := by simpa using hd
      have hm := hmem e (List.mem_cons_self e rest) hd'
      have heq := processFile_pass cfg env ex p e st ha hd' hr hm
      set st1 : RunState :=
        ⟨st.results ++ [⟨some ⟨p, cfg.processed_image_path,
            new_filename p e.name cfg.conversion_format⟩, st.acc.tag_data⟩],
          st.events,
          ⟨some ⟨p, cfg.processed_image_path,
            new_filename p e.name cfg.conversion_format⟩, st.acc.tag_data⟩,
          false⟩ with hst1
      have h1 := ih st1 rfl hr (fun x hx => hmem x (List.mem_cons_of_mem e hx))
      simp only [List.foldl_cons, heq]
      refine ⟨?_, h1.2.1, ?_, ?_⟩
      · rw [h1.1, hst1]
      · rw [h1.2.2.1, hst1]
        simp [hd', List.length_append]
        omega
      · intro r hrr
        rcases h1.2.2.2 r hrr with hin | hsh
        · rw [hst1] at hin
          rcases List.mem_append.mp hin with h | h
          · exact Or.inl h
          · simp at h
            subst h
            exact Or.inr ⟨new_filename p e.name cfg.conversion_format, rfl⟩
        · exact Or.inr hsh

/-- Fold form of `processFile_pass` over the source directories. -/
lemma foldDirs_pass (cfg : Config) (env : Env) (ex : List String) :
    ∀ (dirs : List String) (st : RunState), st.aborted = false → cfg.retag = false →
    (∀ d ∈ dirs, ∃ es, env.listdir d = some es ∧
      ∀ e ∈ es, e.isDir = false → new_filename d e.name cfg.conversion_format ∈ ex) →
    (dirs.foldl (processDir cfg env (some ex)) st).events = st.events ∧
    (dirs.foldl (processDir cfg env (some ex)) st).aborted = false ∧
    (dirs.foldl (processDir cfg env (some ex)) st).results.length
      = st.results.length + totalFiles env dirs ∧
    ∀ r ∈ (dirs.foldl (processDir cfg env (some ex)) st).results,
      r ∈ st.results ∨ ∃ d nf, r.conversion_data = some ⟨d, cfg.processed_image_path, nf⟩ := by
  intro dirs
  induction dirs with
  | nil => intro st ha hr _; exact ⟨rfl, ha, by simp [totalFiles], fun r hrr => Or.inl hrr⟩
  | cons d rest ih =>
    intro st ha hr hdirs
    obtain ⟨es, hes, hmem⟩ := hdirs d (List.mem_cons_self d rest)
    have hpd : processDir cfg env (some ex) st d
        = es.foldl (fun s e => processFile cfg env (some ex) d e s) st := by
      simp [processDir, ha, hes]
    have hf := foldFiles_pass cfg env ex d es st ha hr hmem
    simp only [List.foldl_cons, hpd]
    have h1 := ih _ hf.2.1 hr (fun x hx => hdirs x (List.mem_cons_of_mem d hx))
    refine ⟨by rw [h1.1, hf.1], h1.2.1, ?_, ?_⟩
    · rw [h1.2.2.1, hf.2.2.1]
      simp [totalFiles, hes]
      omega
    · intro r hrr
      rcases h1.2.2.2 r hrr with hin | hsh
      · rcases hf.2.2.2 r hin with h | h
        · exact Or.inl h
        · exact Or.inr ⟨d, h⟩
      · exact Or.inr hsh

/-! ## Claim C2 — idempotence of a second run with `retag = False` -/

/-- C2: when every computed converted filename is already in the
output-directory snapshot and `retag = False` (the situation of a second
run over the same source directories), the run makes no external call at
all — so `FormatConverter` is never invoked, no metadata write (or read)
is attempted and no new converted file can appear — it does not abort, it
still emits one result per source file, and every emitted result carries a
synthesized pass-through conversion record. -/
theorem second_run_idempotent (cfg : Config) (env : Env) (ex : List String)
    (hr : cfg.retag = false)
    (hout : get_filenames env cfg.processed_image_path = some ex)
    (hdirs : ∀ d ∈ cfg.original_image_paths, ∃ es, env.listdir d = some es ∧
      ∀ e ∈ es, e.isDir = false → new_filename d e.name cfg.conversion_format ∈ ex) :
    (generate_processed_copies cfg env).events = [] ∧
    (generate_processed_copies cfg env).aborted = false ∧
    (generate_processed_copies cfg env).results.length
      = totalFiles env cfg.original_image_paths ∧
    ∀ r ∈ (generate_processed_copies cfg env).results,
      ∃ d nf, r.conversion_data = some ⟨d, cfg.processed_image_path, nf⟩ := by
  have h := foldDirs_pass cfg env ex cfg.original_image_paths ⟨[], [], initAcc, false⟩ rfl hr hdirs
  have hgen : generate_processed_copies cfg env
      = cfg.original_image_paths.foldl (processDir cfg env (some ex)) ⟨[], [], initAcc, false⟩ := by
    show cfg.original_image_paths.foldl
      (processDir cfg env (get_filenames env cfg.processed_image_path)) ⟨[], [], initAcc, false⟩ = _
    rw [hout]
  rw [hgen]
  refine ⟨h.1, h.2.1, by rw [h.2.2.1]; simp, ?_⟩
  intro r hrr
  rcases h.2.2.2 r hrr with hin | hsh
  · simp at hin
  · exact hsh

/-- An environment in which every external operation succeeds trivially. -/
def envAllOk : Env :=
  { listdir := fun _ => some []
    imageMeta := fun _ => some []
    convertOk := fun _ _ => true
    writeOk := fun _ => true }

/-- Second-run setting: the output snapshot already contains the converted
name of the single source file (`sha1("a") = 86f7…67b8`). -/
def envC2 : Env :=
  { listdir := fun d =>
      if d = "out" then some [⟨"86f7e437faa5a7fce15d1ddcb9eaeaea377667b8_p.jpg", false⟩]
      else if d = "a" then some [⟨"p.tif", false⟩] else none
    imageMeta := fun _ => some []
    convertOk := fun _ _ => true
    writeOk := fun _ => true }

/-- Configuration of the `envC2` run. -/
def cfgC2 : Config := ProcessImages_init ["a"] "out" "jpg" (.bool false)

set_option maxRecDepth 100000 in
/-- Witness for C2: a concrete second run over one already-converted file
makes no external call and still yields one result. -/
theorem second_run_idempotent_witness :
    (generate_processed_copies cfgC2 envC2).events = [] ∧
    (generate_processed_copies cfgC2 envC2).results.length = 1 := by
  have h := second_run_idempotent cfgC2 envC2
    ["86f7e437faa5a7fce15d1ddcb9eaeaea377667b8_p.jpg"] rfl rfl
    (by
      intro d hd
      have hda : d = "a" := by simpa [cfgC2, ProcessImages_init] using hd
      subst hda
      exact ⟨[⟨"p.tif", false⟩], rfl, by
        intro e he hde
        have he' : e = ⟨"p.tif", false⟩ := by simpa using he
        subst he'
        decide⟩)
  refine ⟨h.1, ?_⟩
  rw [h.2.2.1]
  decide

/-! ## Claim C7 — conversion-format fallback -/

/-- C7: any requested format whose lower-casing is outside the allow-list
is silently replaced by `jpg` at construction (construction is a total
function, so it cannot raise), and every converted filename computed under
that configuration carries the `.jpg` extension. -/
theorem format_fallback (ps : List String) (pp fmt : String) (v : PyVal)
    (h : str_lower fmt ∉ ALLOWED_CONVERSION_FORMATS) :
    (ProcessImages_init ps pp fmt v).conversion_format = "jpg" ∧
    ∀ p f, new_filename p f (ProcessImages_init ps pp fmt v).conversion_format
      = sha1hex p ++ "_" ++ (splitext f).1 ++ "." ++ "jpg" := by
  have hc : (ProcessImages_init ps pp fmt v).conversion_format = "jpg" := by
    simp [ProcessImages_init, h]
  exact ⟨hc, fun p f => by rw [hc]; rfl⟩

/-- Witness for C7: requesting `"bmp"` yields `jpg`. -/
theorem format_fallback_witness :
    str_lower "bmp" ∉ ALLOWED_CONVERSION_FORMATS ∧
    (ProcessImages_init ["a"] "out" "bmp" (.bool false)).conversion_format = "jpg" :=
  ⟨by decide, (format_fallback ["a"] "out" "bmp" (.bool false) (by decide)).1⟩

/-! ## Claim C9 — `write_iptc_tags` contract -/

/-- C9: `write_iptc_tags` is a total boolean-returning function (so no
exception crosses its boundary); it writes something only when the
record's key is `Iptc.Application2.Keywords` — and then exactly the
record's tag values, returning `True` — any other key is a no-op returning
`False`, and a failing write (the `writeOk` oracle saying the `pyexiv2`
write raises) is reported as `False`. -/
theorem write_iptc_tags_spec (env : Env) (path filename : String) (t : TagData) :
    (t.iptc_key ≠ "Iptc.Application2.Keywords" →
      write_iptc_tags env path filename t = (false, none)) ∧
    ((write_iptc_tags env path filename t).2.isSome →
      t.iptc_key = "Iptc.Application2.Keywords" ∧
      (write_iptc_tags env path filename t).2 = some t.tags ∧
      (write_iptc_tags env path filename t).1 = true) ∧
    (env.writeOk (ospath_join path filename) = false →
      (write_iptc_tags env path filename t).1 = false) := by
  unfold write_iptc_tags
  by_cases hk : t.iptc_key = "Iptc.Application2.Keywords" <;>
    by_cases hw : env.writeOk (ospath_join path filename) <;> simp [hk, hw]

/-- Witness for C9: a record under a non-keyword key is a no-op returning
`False`. -/
theorem write_iptc_tags_spec_witness :
    write_iptc_tags envAllOk "out" "f.jpg" ⟨"Iptc.Application2.Caption", ["x"]⟩
      = (false, none) :=
  (write_iptc_tags_spec envAllOk "out" "f.jpg" ⟨"Iptc.Application2.Caption", ["x"]⟩).1
    (by decide)

/-! ## Claim C10 — non-boolean `retag` coerced to `False` -/

/-- C10: `isinstance(retag, bool)` failing makes `__init__` store
`retag = False`, and the resulting pipeline run is identical, state for
state, to a run constructed with `retag = False`. -/
theorem nonbool_retag_coerced (v : PyVal) (h : isinstanceBool v = false)
    (ps : List String) (pp fmt : String) (env : Env) :
    (ProcessImages_init ps pp fmt v).retag = false ∧
    generate_processed_copies (ProcessImages_init ps pp fmt v) env
      = generate_processed_copies (ProcessImages_init ps pp fmt (.bool false)) env := by
  cases v with
  | bool b => simp [isinstanceBool] at h
  | int n => exact ⟨rfl, rfl⟩
  | str s => exact ⟨rfl, rfl⟩
  | pynone => exact ⟨rfl, rfl⟩

/-- Witness for C10: the string value `"yes"` is coerced to `False`. -/
theorem nonbool_retag_coerced_witness :
    (ProcessImages_init ["a"] "out" "jpg" (.str "yes")).retag = false ∧
    generate_processed_copies (ProcessImages_init ["a"] "out" "jpg" (.str "yes")) envAllOk
      = generate_processed_copies (ProcessImages_init ["a"] "out" "jpg" (.bool false)) envAllOk :=
  nonbool_retag_coerced (.str "yes") rfl ["a"] "out" "jpg" envAllOk

/-! ## Lemmas about the tag-transfer loop -/

/-- The tag loop never touches the conversion record. -/
lemma applyTags_conversion_preserved (env : Env) (pp nf : String) :
    ∀ (tags : List TagData) (acc : ProcessedData),
      (applyTags env pp nf tags acc).1.conversion_data = acc.conversion_data := by
  intro tags
  induction tags with
  | nil => intro acc; rfl
  | cons t rest ih =>
    intro acc
    by_cases h : t.tags = [] <;> simp [applyTags, h, ih]

/-- Every event produced by the tag loop is a metadata write. -/
lemma applyTags_events_writes (env : Env) (pp nf : String) :
    ∀ (tags : List TagData) (acc : ProcessedData) (ev : Event),
      ev ∈ (applyTags env pp nf tags acc).2 → ev.isWrite = true := by
  intro tags
  induction tags with
  | nil => intro acc ev hev; simp [applyTags] at hev
  | cons t rest ih =>
    intro acc ev hev
    by_cases h : t.tags = []
    · simp only [applyTags, h] at hev
      simp at hev
      exact ih _ ev hev
    · simp only [applyTags] at hev
      rw [if_pos h] at hev
      · rcases List.mem_cons.mp hev with he | he
        · subst he; rfl
        · exact ih _ ev he

/-- Every record with non-empty tags generates a write of exactly those
tags plus the provenance marker. -/
lemma applyTags_write_mem (env : Env) (pp nf : String) :
    ∀ (tags : List TagData) (acc : ProcessedData) (t : TagData), t ∈ tags → t.tags ≠ [] →
      Event.writeTags (ospath_join pp nf) t.iptc_key (t.tags ++ [PROVENANCE])
        (write_iptc_tags env pp nf ⟨t.iptc_key, t.tags ++ [PROVENANCE]⟩).1
        ∈ (applyTags env pp nf tags acc).2 := by
  intro tags
  induction tags with
  | nil => intro acc t ht _; simp at ht
  | cons u rest ih =>
    intro acc t ht htne
    rcases List.mem_cons.mp ht with he | he
    · subst he
      simp [applyTags, htne]
    · by_cases h : u.tags = []
      · simpa [applyTags, h] using ih _ t he htne
      · have h' : u.tags ≠ [] := h
        simp only [applyTags]
        rw [if_pos h']
        exact List.mem_cons_of_mem _ (ih _ t he htne)

/-! ## Claim C4 — provenance marker appended exactly once before writing -/

/-- Concrete single-file environment whose source image carries the two
example keyword tags. -/
def envC4 : Env :=
  { listdir := fun d => if d = "out" then some []
      else if d = "d" then some [⟨"p.tif", false⟩] else none
    imageMeta := fun u => if u = "d/p.tif"
      then some [("Iptc.Application2.Keywords", ["DATE: 1974", "PLACE: The Moon"])]
      else none
    convertOk := fun _ _ => true
    writeOk := fun _ => true }

/-- Configuration for the `envC4` run. -/
def cfgC4 : Config := ProcessImages_init ["d"] "out" "jpg" (.bool false)

set_option maxRecDepth 100000 in
/-- C4: a record with non-empty tag values has exactly one provenance
string appended and is written exactly once with those values; a record
with empty tag values is stored unchanged and produces no write; and in a
concrete run over a source file tagged `DATE: 1974` / `PLACE: The Moon`,
the converted file's keyword metadata afterwards is exactly those two tags
plus the provenance marker. -/
theorem provenance_marker :
    (∀ (env : Env) (pp nf : String) (acc : ProcessedData) (t : TagData), t.tags ≠ [] →
      applyTags env pp nf [t] acc =
        ({ acc with tag_data := ⟨t.iptc_key, t.tags ++ [PROVENANCE]⟩ },
          [Event.writeTags (ospath_join pp nf) t.iptc_key (t.tags ++ [PROVENANCE])
            (write_iptc_tags env pp nf ⟨t.iptc_key, t.tags ++ [PROVENANCE]⟩).1])) ∧
    (∀ (env : Env) (pp nf : String) (acc : ProcessedData) (t : TagData), t.tags = [] →
      applyTags env pp nf [t] acc = ({ acc with tag_data := t }, [])) ∧
    keywordsAfter (generate_processed_copies cfgC4 envC4).events
      (ospath_join "out" (new_filename "d" "p.tif" "jpg"))
      = some ["DATE: 1974", "PLACE: The Moon", "SPM: TAGS COPIED FROM ORIGINAL"] := by
  refine ⟨?_, ?_, by decide⟩
  · intro env pp nf acc t h
    simp [applyTags, h]
  · intro env pp nf acc t h
    simp [applyTags, h]

/-- Witness for C4 at the example tag list. -/
theorem provenance_marker_witness :
    applyTags envAllOk "out" "n.jpg"
        [⟨"Iptc.Application2.Keywords", ["DATE: 1974", "PLACE: The Moon"]⟩]
        ⟨some ⟨"", "", ""⟩, ⟨"", []⟩⟩
      = (⟨some ⟨"", "", ""⟩, ⟨"Iptc.Application2.Keywords",
            ["DATE: 1974", "PLACE: The Moon", "SPM: TAGS COPIED FROM ORIGINAL"]⟩⟩,
          [Event.writeTags "out/n.jpg" "Iptc.Application2.Keywords"
            ["DATE: 1974", "PLACE: The Moon", "SPM: TAGS COPIED FROM ORIGINAL"] true]) := by
  have h := (provenance_marker).1 envAllOk "out" "n.jpg" ⟨some ⟨"", "", ""⟩, ⟨"", []⟩⟩
    ⟨"Iptc.Application2.Keywords", ["DATE: 1974", "PLACE: The Moon"]⟩ (by decide)
  rw [h]
  decide

/-! ## Claim C8 — no-metadata sentinel and no write for it -/

/-- Configuration of the C8 witness run. -/
def cfgC8 : Config := ProcessImages_init ["a"] "out" "jpg" (.bool false)

/-- C8: an image with no metadata entries yields exactly the one sentinel
record with empty field key and empty tag list — never an empty sequence —
and processing such a file adds no metadata-write event to the trace. -/
theorem no_metadata_sentinel (env : Env) (cfg : Config) (ex : List String)
    (p : String) (e : Entry) (st : RunState)
    (hmeta : env.imageMeta (ospath_join p e.name) = some []) :
    read_iptc_tags env e.name p = some [⟨"", []⟩] ∧
    (st.aborted = false → e.isDir = false →
      ∀ ev ∈ (processFile cfg env (some ex) p e st).events,
        ev ∈ st.events ∨ ev.isWrite = false) := by
  have hread : read_iptc_tags env e.name p = some [⟨"", []⟩] := by
    simp [read_iptc_tags, hmeta]
  refine ⟨hread, ?_⟩
  intro ha hd ev hev
  by_cases hm : new_filename p e.name cfg.conversion_format ∈ ex
  · have hdec : decide (new_filename p e.name cfg.conversion_format ∈ ex) = true :=
      decide_eq_true hm
    by_cases hr : cfg.retag
    · simp [processFile, ha, hd, hdec, hr, hread, applyTags] at hev
      rcases hev with h | h
      · exact Or.inl h
      · subst h; exact Or.inr rfl
    · simp [processFile, ha, hd, hdec, hr] at hev
      exact Or.inl hev
  · have hdec : decide (new_filename p e.name cfg.conversion_format ∈ ex) = false :=
      decide_eq_false hm
    by_cases hcv : env.convertOk (ospath_join p e.name)
      (ospath_join cfg.processed_image_path
        ((splitext (new_filename p e.name cfg.conversion_format)).1
          ++ "." ++ cfg.conversion_format))
    · simp [processFile, convert_format, ha, hd, hdec, hread, applyTags, hcv] at hev
      rcases hev with h | h | h
      · exact Or.inl h
      · subst h; exact Or.inr rfl
      · subst h; exact Or.inr rfl
    · simp [processFile, convert_format, ha, hd, hdec, hread, applyTags, hcv] at hev
      rcases hev with h | h | h
      · exact Or.inl h
      · subst h; exact Or.inr rfl
      · subst h; exact Or.inr rfl

set_option maxRecDepth 100000 in
/-- Witness for C8: a concrete no-metadata file produces the sentinel
record and its processing step adds no write event. -/
theorem no_metadata_sentinel_witness :
    read_iptc_tags envAllOk "p.tif" "a" = some [⟨"", []⟩] ∧
    (Event.readTags "a/p.tif" true ∈ (⟨[], [], initAcc, false⟩ : RunState).events ∨
      (Event.readTags "a/p.tif" true).isWrite = false) := by
  have h := no_metadata_sentinel envAllOk cfgC8 [] "a" ⟨"p.tif", false⟩
    ⟨[], [], initAcc, false⟩ (by decide)
  exact ⟨h.1, h.2 rfl rfl (Event.readTags "a/p.tif" true) (by decide)⟩

/-! ## Claim C5 — result emitted on metadata-read failure, but with a
stale (previously emitted) tag record, not an empty one -/

/-- Two files: the first carries a keyword tag, reading the second raises. -/
def envC5 : Env :=
  { listdir := fun d => if d = "out" then some []
      else if d = "d" then some [⟨"f1.tif", false⟩, ⟨"f2.tif", false⟩] else none
    imageMeta := fun u => if u = "d/f1.tif"
      then some [("Iptc.Application2.Keywords", ["X"])] else none
    convertOk := fun _ _ => true
    writeOk := fun _ => true }

/-- Configuration of the `envC5` run. -/
def cfgC5 : Config := ProcessImages_init ["d"] "out" "jpg" (.bool false)

set_option maxRecDepth 100000 in
/-- Counterexample to C5: reading the second file's metadata fails, a
result is still emitted for it, but its metadata field equals the first
file's tagged record — the shared accumulator is not reset — rather than
an empty/failure record. -/
theorem metadata_read_failure_stale_record :
    envC5.imageMeta "d/f2.tif" = none ∧
    ((generate_processed_copies cfgC5 envC5).results.map ProcessedData.tag_data)
      = [⟨"Iptc.Application2.Keywords", ["X", "SPM: TAGS COPIED FROM ORIGINAL"]⟩,
          ⟨"Iptc.Application2.Keywords", ["X", "SPM: TAGS COPIED FROM ORIGINAL"]⟩] :=
  ⟨rfl, by decide⟩

/-- One file whose metadata read raises. -/
def envC5b : Env :=
  { listdir := fun d => if d = "out" then some []
      else if d = "d" then some [⟨"p.tif", false⟩] else none
    imageMeta := fun _ => none
    convertOk := fun _ _ => true
    writeOk := fun _ => true }

/-- Configuration of the `envC5b` run. -/
def cfgC5b : Config := ProcessImages_init ["d"] "out" "jpg" (.bool false)

set_option maxRecDepth 100000 in
/-- C5 as amended: when the metadata read for a file fails, a result is
still emitted for that file, but its metadata field is whatever the
accumulator already held — the previously emitted record's metadata, or
the initial empty record when no earlier file stored tags (as in the
concrete one-file run, whose single result carries the empty record). -/
theorem metadata_read_failure_amended (cfg : Config) (env : Env) (ex : List String)
    (p : String) (e : Entry) (st : RunState)
    (ha : st.aborted = false) (hd : e.isDir = false)
    (hmeta : env.imageMeta (ospath_join p e.name) = none) :
    (processFile cfg env (some ex) p e st).results
      = st.results ++ [(processFile cfg env (some ex) p e st).acc] ∧
    ((processFile cfg env (some ex) p e st).acc).tag_data = st.acc.tag_data ∧
    ((generate_processed_copies cfgC5b envC5b).results.map ProcessedData.tag_data)
      = [⟨"", []⟩] := by
  have hread : read_iptc_tags env e.name p = none := by
    simp [read_iptc_tags, hmeta]
  have key : (processFile cfg env (some ex) p e st).results
      = st.results ++ [(processFile cfg env (some ex) p e st).acc] ∧
      ((processFile cfg env (some ex) p e st).acc).tag_data = st.acc.tag_data := by
    by_cases hm : new_filename p e.name cfg.conversion_format ∈ ex
    · have hdec : decide (new_filename p e.name cfg.conversion_format ∈ ex) = true :=
        decide_eq_true hm
      by_cases hr : cfg.retag
      · constructor <;> simp [processFile, ha, hd, hdec, hr, hread]
      · constructor <;> simp [processFile, ha, hd, hdec, hr]
    · have hdec : decide (new_filename p e.name cfg.conversion_format ∈ ex) = false :=
        decide_eq_false hm
      by_cases hcv : env.convertOk (ospath_join p e.name)
        (ospath_join cfg.processed_image_path
          ((splitext (new_filename p e.name cfg.conversion_format)).1
            ++ "." ++ cfg.conversion_format))
      · constructor <;> simp [processFile, convert_format, ha, hd, hdec, hread, hcv]
      · constructor <;> simp [processFile, convert_format, ha, hd, hdec, hread, hcv]
  exact ⟨key.1, key.2, by decide⟩

set_option maxRecDepth 100000 in
/-- Witness for the amended C5: the one-file run with a failing metadata
read emits that file's result with the initial empty tag record. -/
theorem metadata_read_failure_amended_witness :
    (processFile cfgC5b envC5b (some []) "d" ⟨"p.tif", false⟩
        ⟨[], [], initAcc, false⟩).results
      = [(processFile cfgC5b envC5b (some []) "d" ⟨"p.tif", false⟩
          ⟨[], [], initAcc, false⟩).acc] ∧
    ((processFile cfgC5b envC5b (some []) "d" ⟨"p.tif", false⟩
        ⟨[], [], initAcc, false⟩).acc).tag_data = ⟨"", []⟩ := by
  have h := metadata_read_failure_amended cfgC5b envC5b [] "d" ⟨"p.tif", false⟩
    ⟨[], [], initAcc, false⟩ rfl rfl rfl
  refine ⟨by simpa using h.1, ?_⟩
  rw [h.2.1]
  rfl

/-! ## Claim C1 — error recovery across the batch -/

/-- Listing the first source directory raises; the second holds a file. -/
def envC1 : Env :=
  { listdir := fun d => if d = "out" then some []
      else if d = "s2" then some [⟨"b.tif", false⟩] else none
    imageMeta := fun _ => some []
    convertOk := fun _ _ => true
    writeOk := fun _ => true }

/-- Configuration of the `envC1` run, naming the unlistable `s1` first. -/
def cfgC1 : Config := ProcessImages_init ["s1", "s2"] "out" "jpg" (.bool false)

set_option maxRecDepth 100000 in
/-- Counterexample to C1: an `os.listdir` failure on the first source
directory is not recovered locally — the run ends with zero results and
the remaining directory `s2`, which holds one file (worth one result, as
the run over `s2` alone shows), is never processed. -/
theorem enumeration_failure_halts_run :
    envC1.listdir "s1" = none ∧
    envC1.listdir "s2" = some [⟨"b.tif", false⟩] ∧
    (generate_processed_copies cfgC1 envC1).results.length = 0 ∧
    (generate_processed_copies (ProcessImages_init ["s2"] "out" "jpg" (.bool false))
      envC1).results.length = 1 := by
  refine ⟨rfl, rfl, by decide, by decide⟩

/-- Three files in one directory; decoding the second fails. -/
def envC1b : Env :=
  { listdir := fun d => if d = "out" then some []
      else if d = "d" then
        some [⟨"f1.tif", false⟩, ⟨"f2.tif", false⟩, ⟨"f3.tif", false⟩]
      else none
    imageMeta := fun _ => some [("Iptc.Application2.Keywords", ["T"])]
    convertOk := fun src _ => src != "d/f2.tif"
    writeOk := fun _ => true }

/-- Configuration of the `envC1b` run. -/
def cfgC1b : Config := ProcessImages_init ["d"] "out" "jpg" (.bool false)

set_option maxRecDepth 100000 in
/-- C1 as amended: a per-file decode/encode failure is recovered locally —
three source files with a corrupt second still yield three results, the
second carrying the failure indicator, without aborting — and no exception
ever crosses the pipeline boundary (the generator's outer handler turns it
into early termination); but an enumeration failure on a source directory
is NOT recovered: the run silently ends there, yielding exactly the
results of the directories before it and nothing for it or any later
directory. -/
theorem error_recovery_amended :
    ((generate_processed_copies cfgC1b envC1b).results.map fun r =>
      r.conversion_data.isSome) = [true, false, true] ∧
    (generate_processed_copies cfgC1b envC1b).aborted = false ∧
    ∀ (cfg : Config) (env : Env) (ps1 ps2 : List String) (d : String),
      cfg.original_image_paths = ps1 ++ d :: ps2 → env.listdir d = none →
      (generate_processed_copies cfg env).results
        = (generate_processed_copies
            { cfg with original_image_paths := ps1 } env).results := by
  refine ⟨by decide, by decide, ?_⟩
  intro cfg env ps1 ps2 d hpaths hld
  have hgen : generate_processed_copies cfg env
      = (ps1 ++ d :: ps2).foldl
          (processDir cfg env (get_filenames env cfg.processed_image_path))
          ⟨[], [], initAcc, false⟩ := by
    show cfg.original_image_paths.foldl
        (processDir cfg env (get_filenames env cfg.processed_image_path))
        ⟨[], [], initAcc, false⟩
      = (ps1 ++ d :: ps2).foldl
          (processDir cfg env (get_filenames env cfg.processed_image_path))
          ⟨[], [], initAcc, false⟩
    rw [hpaths]
  have h1 := processDir_of_listdir_fail cfg env
    (get_filenames env cfg.processed_image_path)
    (ps1.foldl (processDir cfg env (get_filenames env cfg.processed_image_path))
      ⟨[], [], initAcc, false⟩) d hld
  rw [hgen, List.foldl_append, List.foldl_cons,
    foldDirs_of_aborted cfg env (get_filenames env cfg.processed_image_path) ps2 _ h1.1,
    h1.2]
  rfl

/-- Witness for the amended C1: applying the early-termination part to the
concrete two-directory run whose first directory is unlistable. -/
theorem error_recovery_amended_witness :
    (generate_processed_copies cfgC1 envC1).results
      = (generate_processed_copies
          { cfgC1 with original_image_paths := [] } envC1).results :=
  (error_recovery_amended).2.2 cfgC1 envC1 [] ["s2"] "s1" rfl rfl

/-! ## Claim C3 — converted-name derivation and uniqueness -/

/-- Two source directories, each holding `photo.tif`. -/
def envC3 : Env :=
  { listdir := fun d => if d = "out" then some []
      else if d = "a" ∨ d = "b" then some [⟨"photo.tif", false⟩] else none
    imageMeta := fun _ => some []
    convertOk := fun _ _ => true
    writeOk := fun _ => true }

/-- Configuration of the `envC3` run. -/
def cfgC3 : Config := ProcessImages_init ["a", "b"] "out" "jpg" (.bool false)

set_option maxRecDepth 400000 in
/-- C3: the converted name is exactly the SHA-1 hex digest of the source
directory path, an underscore, the original base name, a dot and the
target extension (so the hash prefix is a deterministic function of the
path); and for two distinct directories each holding `photo.tif` the two
computed names differ, and a run over both yields two results whose
converted filenames are distinct (neither overwrites the other in the
shared output directory). -/
theorem converted_filename_spec :
    (∀ p f fmt, new_filename p f fmt = sha1hex p ++ "_" ++ (splitext f).1 ++ "." ++ fmt) ∧
    new_filename "a" "photo.tif" "jpg" ≠ new_filename "b" "photo.tif" "jpg" ∧
    (generate_processed_copies cfgC3 envC3).results.length = 2 ∧
    ((generate_processed_copies cfgC3 envC3).results.map fun r =>
      (r.conversion_data.getD ⟨"", "", ""⟩).filename).Nodup := by
  exact ⟨fun p f fmt => rfl, by decide, by decide, by decide⟩

/-! ## Claim C6 — retag of an already-converted file -/

/-- The output snapshot already contains the converted name of `a/p.tif`;
the source image carries no metadata. -/
def envC6 : Env :=
  { listdir := fun d =>
      if d = "out" then some [⟨"86f7e437faa5a7fce15d1ddcb9eaeaea377667b8_p.jpg", false⟩]
      else if d = "a" then some [⟨"p.tif", false⟩] else none
    imageMeta := fun _ => some []
    convertOk := fun _ _ => true
    writeOk := fun _ => true }

/-- `retag = True` configuration over `envC6`. -/
def cfgC6 : Config := ProcessImages_init ["a"] "out" "jpg" (.bool true)

set_option maxRecDepth 400000 in
/-- Counterexample to C6: with `retag = True` and the file already
converted, the metadata read is invoked but — because the source has no
keyword tags — `write_iptc_tags` is never invoked, contradicting the
claim that `write_keywords` is invoked for every already-converted file. -/
theorem retag_no_write_without_tags :
    cfgC6.retag = true ∧
    new_filename "a" "p.tif" cfgC6.conversion_format
      ∈ ["86f7e437faa5a7fce15d1ddcb9eaeaea377667b8_p.jpg"] ∧
    ((generate_processed_copies cfgC6 envC6).events.filter Event.isRead).length = 1 ∧
    (generate_processed_copies cfgC6 envC6).events.filter Event.isWrite = [] ∧
    (generate_processed_copies cfgC6 envC6).events.filter Event.isConvert = [] ∧
    (generate_processed_copies cfgC6 envC6).results.length = 1 := by
  refine ⟨rfl, by decide⟩

/-- C6 as amended: with `retag = True`, processing a file whose converted
name is already in the snapshot adds no conversion event (the pass-through
record references the existing file), invokes the metadata read on the
source, yields the file's result, and invokes the metadata write on the
converted file for each metadata entry whose tag list is non-empty (and
only for those — no write happens when the read fails or every entry's
tags are empty, as the counterexample shows). -/
theorem retag_reprocesses_existing (cfg : Config) (env : Env) (ex : List String)
    (p : String) (e : Entry) (st : RunState)
    (ha : st.aborted = false) (hd : e.isDir = false) (hr : cfg.retag = true)
    (hm : new_filename p e.name cfg.conversion_format ∈ ex) :
    (∀ ev ∈ (processFile cfg env (some ex) p e st).events,
      ev ∈ st.events ∨ ev.isConvert = false) ∧
    (processFile cfg env (some ex) p e st).acc.conversion_data
      = some ⟨p, cfg.processed_image_path, new_filename p e.name cfg.conversion_format⟩ ∧
    (processFile cfg env (some ex) p e st).results
      = st.results ++ [(processFile cfg env (some ex) p e st).acc] ∧
    Event.readTags (ospath_join p e.name) (read_iptc_tags env e.name p).isSome
      ∈ (processFile cfg env (some ex) p e st).events ∧
    (∀ entries, env.imageMeta (ospath_join p e.name) = some entries → entries ≠ [] →
      ∀ kv ∈ entries, kv.2 ≠ ([] : List String) →
        Event.writeTags
            (ospath_join cfg.processed_image_path
              (new_filename p e.name cfg.conversion_format))
            kv.1 (kv.2 ++ [PROVENANCE])
            (write_iptc_tags env cfg.processed_image_path
              (new_filename p e.name cfg.conversion_format)
              ⟨kv.1, kv.2 ++ [PROVENANCE]⟩).1
          ∈ (processFile cfg env (some ex) p e st).events) := by
  have hdec : decide (new_filename p e.name cfg.conversion_format ∈ ex) = true :=
    decide_eq_true hm
  cases hread : read_iptc_tags env e.name p with
  | none =>
    have hpf : processFile cfg env (some ex) p e st =
        ⟨st.results ++ [⟨some ⟨p, cfg.processed_image_path,
            new_filename p e.name cfg.conversion_format⟩, st.acc.tag_data⟩],
          st.events ++ [Event.readTags (ospath_join p e.name) false],
          ⟨some ⟨p, cfg.processed_image_path,
            new_filename p e.name cfg.conversion_format⟩, st.acc.tag_data⟩,
          st.aborted⟩ := by
      simp [processFile, ha, hd, hdec, hr, hread]
    refine ⟨?_, by rw [hpf], by rw [hpf], ?_, ?_⟩
    · intro ev hev
      rw [hpf] at hev
      rcases List.mem_append.mp hev with h | h
      · exact Or.inl h
      · simp at h; subst h; exact Or.inr rfl
    · rw [hpf]
      simp
    · intro entries hmeta hne kv _ _
      exfalso
      have : read_iptc_tags env e.name p ≠ none := by
        simp [read_iptc_tags, hmeta, hne]
      exact this hread
  | some tags =>
    have hpf : processFile cfg env (some ex) p e st =
        ⟨st.results ++ [(applyTags env cfg.processed_image_path
            (new_filename p e.name cfg.conversion_format) tags
            ⟨some ⟨p, cfg.processed_image_path,
              new_filename p e.name cfg.conversion_format⟩, st.acc.tag_data⟩).1],
          st.events ++ (Event.readTags (ospath_join p e.name) true
            :: (applyTags env cfg.processed_image_path
              (new_filename p e.name cfg.conversion_format) tags
              ⟨some ⟨p, cfg.processed_image_path,
                new_filename p e.name cfg.conversion_format⟩, st.acc.tag_data⟩).2),
          (applyTags env cfg.processed_image_path
            (new_filename p e.name cfg.conversion_format) tags
            ⟨some ⟨p, cfg.processed_image_path,
              new_filename p e.name cfg.conversion_format⟩, st.acc.tag_data⟩).1,
          st.aborted⟩ := by
      simp [processFile, ha, hd, hdec, hr, hread]
    refine ⟨?_, ?_, by rw [hpf], ?_, ?_⟩
    · intro ev hev
      rw [hpf] at hev
      rcases List.mem_append.mp hev with h | h
      · exact Or.inl h
      · rcases List.mem_cons.mp h with h2 | h2
        · subst h2; exact Or.inr rfl
        · have := applyTags_events_writes env cfg.processed_image_path
            (new_filename p e.name cfg.conversion_format) tags _ ev h2
          cases ev <;> simp_all [Event.isWrite, Event.isConvert]
    · rw [hpf]
      exact applyTags_conversion_preserved env cfg.processed_image_path
        (new_filename p e.name cfg.conversion_format) tags _
    · rw [hpf]
      simp
    · intro entries hmeta hne kv hkv hkvne
      have htags : tags = entries.map fun kv => ⟨kv.1, kv.2⟩ := by
        have : read_iptc_tags env e.name p
            = some (entries.map fun kv => (⟨kv.1, kv.2⟩ : TagData)) := by
          simp [read_iptc_tags, hmeta, hne]
        rw [hread] at this
        exact Option.some.inj this
      have hmem : (⟨kv.1, kv.2⟩ : TagData) ∈ tags := by
        rw [htags]
        exact List.mem_map_of_mem _ hkv
      have hw := applyTags_write_mem env cfg.processed_image_path
        (new_filename p e.name cfg.conversion_format) tags
        ⟨some ⟨p, cfg.processed_image_path,
          new_filename p e.name cfg.conversion_format⟩, st.acc.tag_data⟩
        ⟨kv.1, kv.2⟩ hmem hkvne
      rw [hpf]
      refine List.mem_append.mpr (Or.inr ?_)
      exact List.mem_cons_of_mem _ hw

/-- Source image carrying one keyword tag, converted name already in the
snapshot. -/
def envC6w : Env :=
  { listdir := fun d =>
      if d = "out" then some [⟨"86f7e437faa5a7fce15d1ddcb9eaeaea377667b8_p.jpg", false⟩]
      else if d = "a" then some [⟨"p.tif", false⟩] else none
    imageMeta := fun u => if u = "a/p.tif"
      then some [("Iptc.Application2.Keywords", ["T"])] else none
    convertOk := fun _ _ => true
    writeOk := fun _ => true }

set_option maxRecDepth 400000 in
/-- Witness for the amended C6: the already-converted tagged file gets its
keyword record written again. -/
theorem retag_reprocesses_existing_witness :
    Event.writeTags
        (ospath_join cfgC6.processed_image_path
          (new_filename "a" "p.tif" cfgC6.conversion_format))
        "Iptc.Application2.Keywords" (["T"] ++ [PROVENANCE])
        (write_iptc_tags envC6w cfgC6.processed_image_path
          (new_filename "a" "p.tif" cfgC6.conversion_format)
          ⟨"Iptc.Application2.Keywords", ["T"] ++ [PROVENANCE]⟩).1
      ∈ (processFile cfgC6 envC6w
          (some ["86f7e437faa5a7fce15d1ddcb9eaeaea377667b8_p.jpg"])
          "a" ⟨"p.tif", false⟩ ⟨[], [], initAcc, false⟩).events := by
  have h := retag_reprocesses_existing cfgC6 envC6w
    ["86f7e437faa5a7fce15d1ddcb9eaeaea377667b8_p.jpg"] "a" ⟨"p.tif", false⟩
    ⟨[], [], initAcc, false⟩ rfl rfl rfl (by decide)
  exact h.2.2.2.2 [("Iptc.Application2.Keywords", ["T"])] rfl (by decide)
    ("Iptc.Application2.Keywords", ["T"]) (List.mem_singleton.mpr rfl) (by decide)

end SPM
